import Mathlib

/-!
Shallow embedding of `dropdown.jsx` (preact_filtered_dropdown): a filterable
single-select dropdown widget.  The embedding follows the later revision of the
source (the file with `disableFiltering`, `resizeToBounds` and `textContent`);
the earlier revision `src/dropdown.jsx` is embedded separately where a claim
needs it.

Option nodes are preact virtual-DOM nodes: either a plain string or an element
carrying props (`value`, `children`).  JS `null`/`undefined` string values are
modelled as `Option String` with `none` for the absent value.
-/

namespace Dropdown

/-- A preact virtual-DOM node as consumed by the dropdown: a plain string leaf,
or an element whose props carry an optional `value` attribute and a list of
child nodes.  (`children` of a single node is modelled as a one-element list:
`textContent` treats both identically.) -/
inductive Node where
  | str (s : String)
  | elem (value? : Option String) (children : List Node)

/-- JS `s.includes(pat)` helper: does `pat` occur as a leading segment of `s`? -/
def leadMatch : List Char → List Char → Bool
  | _, [] => true
  | [], _ :: _ => false
  | a :: s, b :: p => a == b && leadMatch s p

/-- JS `s.includes(pat)`: `pat` occurs as a contiguous run somewhere in `s`. -/
def hasSub : List Char → List Char → Bool
  | [], pat => pat.isEmpty
  | s :: rest, pat => leadMatch (s :: rest) pat || hasSub rest pat

/-- `String.includes` of JavaScript: substring containment. -/
def strIncludes (s pat : String) : Bool := hasSub s.data pat.data

/-- JS `String.prototype.trim` at the character-list level: strip whitespace
from both ends. -/
def trimChars (l : List Char) : List Char :=
  ((l.dropWhile Char.isWhitespace).reverse.dropWhile Char.isWhitespace).reverse

/-- JS `s.toLowerCase().trim()` (the normalisation the source applies to the
filter text), as a character list.  The source's option texts are ASCII, where
JS `toLowerCase` agrees with `Char.toLower`. -/
def lowerTrim (s : String) : List Char := trimChars (s.data.map Char.toLower)

/-- Embedding of `textContent(elem)` from the source: a string node is its own
text; an element concatenates the text of its children in order. -/
def textContent : Node → String
  | .str s => s
  | .elem _ cs => go cs
where
  /-- `children.map(textContent).join('')` of the source. -/
  go : List Node → String
  | [] => ""
  | c :: cs => textContent c ++ go cs

/-- The `children` argument of `FilteredChildren` as a raw JS value: any
non-array value (string, object, `null`, `undefined`, number), or an array of
nodes.  The source guards with `Array.isArray`. -/
inductive ChildrenArg where
  | notArray
  | array (l : List Node)

/-- Embedding of `FilteredChildren` from the source (candidate filtering):
`if(!Array.isArray(children) || children.length < 1) return [];` then for each
child `c`, it is kept iff `textContent(c).includes(filter.toLowerCase().trim())`
or `disableFiltering`.  Note the source lowercases and trims only the filter
side, not the option text.  The clone-with-handler decoration is identity at
the option-data level, so candidates are the kept nodes themselves. -/
def FilteredChildren (children : ChildrenArg) (filter : String)
    (disableFiltering : Bool) : List Node :=
  match children with
  | .notArray => []
  | .array l =>
    if l.length < 1 then []
    else l.foldl (fun opts c =>
      if hasSub (textContent c).data (lowerTrim filter) || disableFiltering
      then opts ++ [c] else opts) []

/-- Candidate filtering over a proper option list (the `filterCandidates`
contract of the spec, applied to the source's `FilteredChildren`). -/
def filterCandidates (l : List Node) (filter : String)
    (disableFiltering : Bool) : List Node :=
  FilteredChildren (.array l) filter disableFiltering

/-- The result record of `findChildByValue`: `{child: ..., text: ...}`. -/
structure FindResult where
  child : Option Node
  text : String

/-- Does a node carry props with `props.value === value`?  A string node has no
`props` (the source skips it via `if(!c.props) return`); an element without a
`value` attribute has `props.value === undefined`, never strictly equal to a
string. -/
def propsValueEq (c : Node) (value : String) : Bool :=
  match c with
  | .str _ => false
  | .elem v? _ => v? == some value

/-- Embedding of `findChildByValue(children, value)` from the source: guards on
array-ness/emptiness, then `forEach` overwrites `retVal` on every node whose
`props.value` strictly equals `value` — a left fold in which the LAST match
wins. -/
def findChildByValue (children : List Node) (value : String) : FindResult :=
  if children.length < 1 then ⟨none, ""⟩
  else children.foldl (fun retVal c =>
    if propsValueEq c value then ⟨some c, textContent c⟩ else retVal) ⟨none, ""⟩

/-- Embedding of the initial-filter seeding in the `Dropdown` body:
`let initialFilter = ""; if(value) initialFilter = findChildByValue(children,
value).text;`.  The `value` prop may be absent (`none`) or the empty string,
both falsy in JS. -/
def resolveInitialFilterText (children : List Node) (value : Option String) :
    String :=
  match value with
  | none => ""
  | some v => if v = "" then "" else (findChildByValue children v).text

/-- The interaction state of one widget instance: the `useState` cells
(`filter`, `value`, `expanded`) plus the immutable per-instance configuration
(`alwaysExpanded` from the `expanded` prop, `hasOnChange` for whether an
`onChange` callback was supplied).  `value` is `Option String` because the
source can store `null` in it (`handleClick` on a value-less target). -/
structure DState where
  filter : String
  value : Option String
  expanded : Bool
  alwaysExpanded : Bool
  hasOnChange : Bool

/-- An externally observable callback invocation: `onChange(v)` with `v` a JS
string or `null` (`none`). -/
inductive Event where
  | onChange (v : Option String)

/-- Embedding of the clear button's `onClick` from the source:
`if(state.filter !== "") state.setFilter(""); if(state.value !== "") {
state.setValue(""); if(state.onChange) state.onChange(""); }`.  Returns the
post-transition state and the list of callback invocations. -/
def clearClick (s : DState) : DState × List Event :=
  let s1 := if s.filter ≠ "" then { s with filter := "" } else s
  if s1.value ≠ some "" then
    ({ s1 with value := some "" },
     if s1.hasOnChange then [.onChange (some "")] else [])
  else (s1, [])

/-- Embedding of `handleInputChange` (wired to both `onInput` and `onFocus`):
`t` is `evt.target.value`, the input's current text.  The guarded
`setExpanded` is followed by an unconditional `setExpanded(true)` and
`setFilter(t)` (the trailing `resizeToBounds()` call touches geometry only). -/
def handleInputChange (s : DState) (t : String) : DState :=
  let s1 := if t ≠ "" || s.alwaysExpanded then { s with expanded := true }
            else { s with expanded := false }
  let s2 := { s1 with expanded := true }
  { s2 with filter := t }

/-- The DOM element a candidate click lands on, as read by `handleClick`:
`evt.target.value` (DOM property; `none` = `undefined`), the `value` attribute
read by `getAttribute` (`none` = `null`), and `innerText` (the candidate's
display text). -/
structure ClickTarget where
  valueProp : Option String
  valueAttr : Option String
  innerText : String

/-- JS `a || b` on the two value reads of `handleClick`: `undefined`, `null`
and `""` are falsy. -/
def jsOrValue (a b : Option String) : Option String :=
  match a with
  | some s => if s = "" then b else some s
  | none => b

/-- Embedding of `handleClick` (candidate activation):
`const value = evt.target.value || evt.target.getAttribute('value');
state.setValue(value); state.setFilter(evt.target.innerText);
state.setExpanded(false); if(state.onChange) state.onChange(value);`. -/
def handleClick (s : DState) (target : ClickTarget) : DState × List Event :=
  let value := jsOrValue target.valueProp target.valueAttr
  let s1 := { s with value := value }
  let s2 := { s1 with filter := target.innerText }
  let s3 := { s2 with expanded := false }
  (s3, if s.hasOnChange then [.onChange value] else [])

/-- The measured inputs of one `resizeToBounds` pass (all in CSS pixels):
anchor (input) bounding-box width, panel (options) bounding-box `y`, panel
`scrollHeight` (natural content height) and `window.innerHeight`. -/
structure GeomInput where
  inputWidth : Int
  optionsY : Int
  scrollHeight : Int
  innerHeight : Int

/-- The style overrides `resizeToBounds` writes on the options panel:
`style.width` and `style.height`; `none` models the cleared override
(`style.height = ''`). -/
structure PanelStyle where
  width : Option Int
  height : Option Int

/-- Embedding of `resizeToBounds()` from the source: measures `g`, sets
`style.width = inputBBox.width - 1`, and sets
`style.height = innerHeight - 10 - optionsBBox.y` when
`scrollHeight + optionsBBox.y > innerHeight - 10`, clearing the height
override otherwise.  The previous style `_st` is overwritten, never read. -/
def resizeToBounds (g : GeomInput) (_st : PanelStyle) : PanelStyle :=
  { width := some (g.inputWidth - 1)
  , height := if g.scrollHeight + g.optionsY > g.innerHeight - 10
              then some (g.innerHeight - 10 - g.optionsY) else none }

/-! Theorems settling the claims. -/

/-- Folding plain appends of singletons concatenates the list. -/
lemma foldl_snoc (l acc : List Node) :
    l.foldl (fun opts c => opts ++ [c]) acc = acc ++ l := by
  induction l generalizing acc with
  | nil => simp
  | cons c cs ih => simp [ih]

/-- Helper for the filtering-disabled bypass: with the condition forced true by
`|| true`, the fold appends every child to the accumulator. -/
lemma foldl_keep_all (f : String) (l acc : List Node) :
    l.foldl (fun opts c =>
      if hasSub (textContent c).data (lowerTrim f) || true
      then opts ++ [c] else opts) acc = acc ++ l := by
  have hfun : (fun (opts : List Node) (c : Node) =>
      if hasSub (textContent c).data (lowerTrim f) || true
      then opts ++ [c] else opts) = fun opts c => opts ++ [c] := by
    funext opts c; simp
  rw [hfun, foldl_snoc]

/-- C1: the claim says filtering lowercases and trims BOTH sides of the
comparison, so `" carrot "` matches the option `"Carrot"`.  The code lowercases
and trims only the filter side: `"Carrot"` is excluded by the filter
`" carrot "` and even by its own exact text `"Carrot"`, while an all-lowercase
option text does match — the normalisation was dropped from the option side. -/
theorem filterCandidates_not_case_insensitive :
    filterCandidates [.elem (some "1") [.str "Carrot"]] " carrot " false = [] ∧
    filterCandidates [.elem (some "1") [.str "Carrot"]] "Carrot" false = [] ∧
    filterCandidates [.elem (some "1") [.str "carrot"]] " carrot " false =
      [.elem (some "1") [.str "carrot"]] :=
  ⟨rfl, rfl, rfl⟩

/-- C4: with `filteringDisabled = true` the candidate list is exactly the input
option list — every option is a candidate, in input order, with no
deduplication or reordering. -/
theorem filterCandidates_disabled_bypass (L : List Node) (t : String) :
    filterCandidates L t true = L := by
  unfold filterCandidates FilteredChildren
  cases L with
  | nil => simp
  | cons c cs =>
    simp only [List.length_cons]
    rw [if_neg (by omega)]
    simpa using foldl_keep_all t (c :: cs) []

/-- C5: a non-array (missing/malformed) option collection, and an empty one,
both yield the empty candidate sequence; the filter is a total function, so it
never fails. -/
theorem filteredChildren_malformed_empty (t : String) (d : Bool) :
    FilteredChildren .notArray t d = [] ∧ FilteredChildren (.array []) t d = [] :=
  ⟨rfl, rfl⟩

/-- C9: the input-change/focus transition always ends with the panel expanded:
the guarded assignment is overridden by the subsequent unconditional
`setExpanded(true)`, regardless of the text and of `alwaysExpanded`. -/
theorem handleInputChange_always_expands (s : DState) (t : String) :
    (handleInputChange s t).expanded = true :=
  rfl

/-- C8: the geometry pass ignores the previously written panel style and
rewrites width and height from the measured inputs alone, so running it twice
on unchanged measurements equals running it once. -/
theorem resizeToBounds_idempotent (g : GeomInput) (st : PanelStyle) :
    resizeToBounds g (resizeToBounds g st) = resizeToBounds g st :=
  rfl

/-- C7: after a geometry pass the panel width is the anchor width minus 1, and
the height override is cleared unless `panelTop + naturalHeight` exceeds
`viewportHeight - 10`, in which case it is exactly
`viewportHeight - 10 - panelTop`. -/
theorem resizeToBounds_geometry (g : GeomInput) (st : PanelStyle) :
    (resizeToBounds g st).width = some (g.inputWidth - 1) ∧
    (resizeToBounds g st).height =
      (if g.optionsY + g.scrollHeight > g.innerHeight - 10
       then some (g.innerHeight - 10 - g.optionsY) else none) := by
  refine ⟨rfl, ?_⟩
  show (if g.scrollHeight + g.optionsY > g.innerHeight - 10
        then some (g.innerHeight - 10 - g.optionsY) else none) = _
  by_cases h : g.scrollHeight + g.optionsY > g.innerHeight - 10
  · rw [if_pos h, if_pos (by omega)]
  · rw [if_neg h, if_neg (by omega)]

/-- C10: the clear affordance never touches the expansion flag (nor the
immutable configuration); only `filter` and `value` are written. -/
theorem clearClick_preserves_expanded (s : DState) :
    (clearClick s).1.expanded = s.expanded ∧
    (clearClick s).1.alwaysExpanded = s.alwaysExpanded ∧
    (clearClick s).1.hasOnChange = s.hasOnChange := by
  unfold clearClick
  by_cases hf : s.filter = "" <;> by_cases hv : s.value = some "" <;>
    simp [hf, hv]

/-- C6: clearing sets `filter` and `value` to `""`, and (with a callback
present) invokes the callback with `""` exactly when the committed value was
non-empty (`!== ""`) before the clear. -/
theorem clearClick_spec (s : DState) (h : s.hasOnChange = true) :
    (clearClick s).1.filter = "" ∧ (clearClick s).1.value = some "" ∧
    ((clearClick s).2 = [.onChange (some "")] ↔ s.value ≠ some "") := by
  unfold clearClick
  by_cases hf : s.filter = "" <;> by_cases hv : s.value = some "" <;>
    simp [hf, hv, h]

/-- The `forEach` of `findChildByValue` is a left fold in which every match
overwrites the accumulator, so it yields the LAST match — the first match of
the reversed list. -/
lemma foldl_last_match (v : String) (l : List Node) (init : FindResult) :
    l.foldl (fun retVal c =>
        if propsValueEq c v then ⟨some c, textContent c⟩ else retVal) init =
      (match l.reverse.find? (fun c => propsValueEq c v) with
       | some c => ⟨some c, textContent c⟩
       | none => init) := by
  induction l generalizing init with
  | nil => rfl
  | cons c cs ih =>
    rw [List.foldl_cons, ih, List.reverse_cons, List.find?_append]
    cases hfind : cs.reverse.find? (fun c => propsValueEq c v) with
    | some c' => simp [hfind]
    | none =>
      by_cases hc : propsValueEq c v
      · simp [hfind, List.find?_singleton, hc]
      · simp [hfind, List.find?_singleton, hc]

/-- C2 counterexample: with two options sharing value `"1"`, the FIRST match is
the option with display text `"A"`, yet the resolver returns `"B"` — the
`forEach` overwrites the result on every match, so the LAST match wins, not
the first as the claim states. -/
theorem resolveInitial_first_match_counterexample :
    resolveInitialFilterText
        [.elem (some "1") [.str "A"], .elem (some "1") [.str "B"]] (some "1")
      = "B" ∧
    propsValueEq (.elem (some "1") [.str "A"]) "1" = true ∧
    textContent (.elem (some "1") [.str "A"]) = "A" ∧
    ("B" : String) ≠ "A" :=
  ⟨rfl, rfl, rfl, by decide⟩

/-- C2 (amended): for a non-falsy initial value `v` the resolver returns the
extracted display text of the LAST option in list order whose `props.value`
strictly equals `v` (the first match of the reversed list), and `""` when `v`
is falsy (`undefined` or `""`) or no option matches. -/
theorem resolveInitial_returns_last_match (children : List Node)
    (v : Option String) :
    resolveInitialFilterText children v =
      (match v with
       | none => ""
       | some s =>
         if s = "" then ""
         else ((children.reverse.find? (fun c => propsValueEq c s)).map
           textContent).getD "") := by
  cases v with
  | none => rfl
  | some s =>
    by_cases hs : s = ""
    · simp [resolveInitialFilterText, hs]
    · simp only [resolveInitialFilterText, hs, if_neg]
      unfold findChildByValue
      cases children with
      | nil => rfl
      | cons c cs =>
        rw [if_neg (by simp)]
        rw [foldl_last_match]
        cases hfind : (c :: cs).reverse.find? (fun c => propsValueEq c s) with
        | some c' => simp [hfind]
        | none => simp [hfind]

/-- C3 counterexample: activating a candidate whose value cannot be resolved
(`evt.target.value` undefined and no `value` attribute) DOES invoke the
external change callback — with the null value — contradicting the claim that
the callback is never invoked with an undefined value. -/
theorem handleClick_novalue_counterexample :
    (handleClick ⟨"", some "", true, false, true⟩
        ⟨none, none, "Peanut"⟩).2 = [Event.onChange none] :=
  rfl

/-- C3 (amended): activating a candidate with no resolvable value token still
updates `filter` from the candidate's display text and collapses the panel,
but it also stores the null value and, when a callback is present, invokes
the callback with that null value. -/
theorem handleClick_novalue (s : DState) (txt : String)
    (h : s.hasOnChange = true) :
    (handleClick s ⟨none, none, txt⟩).1.filter = txt ∧
    (handleClick s ⟨none, none, txt⟩).1.expanded = false ∧
    (handleClick s ⟨none, none, txt⟩).1.value = none ∧
    (handleClick s ⟨none, none, txt⟩).2 = [Event.onChange none] := by
  refine ⟨rfl, rfl, rfl, ?_⟩
  simp [handleClick, jsOrValue, h]

/-- Witness for C3's amended theorem at a concrete state and candidate. -/
theorem handleClick_novalue_witness :
    (handleClick ⟨"x", some "1", true, false, true⟩
        ⟨none, none, "Pea"⟩).1.filter = "Pea" ∧
    (handleClick ⟨"x", some "1", true, false, true⟩
        ⟨none, none, "Pea"⟩).1.expanded = false ∧
    (handleClick ⟨"x", some "1", true, false, true⟩
        ⟨none, none, "Pea"⟩).1.value = none ∧
    (handleClick ⟨"x", some "1", true, false, true⟩
        ⟨none, none, "Pea"⟩).2 = [Event.onChange none] :=
  handleClick_novalue ⟨"x", some "1", true, false, true⟩ "Pea" rfl

/-- Witness for C6 at a concrete state with a non-empty committed value. -/
theorem clearClick_spec_witness :
    (clearClick ⟨"Peanut", some "2", true, false, true⟩).1.filter = "" ∧
    (clearClick ⟨"Peanut", some "2", true, false, true⟩).1.value = some "" ∧
    ((clearClick ⟨"Peanut", some "2", true, false, true⟩).2 =
        [.onChange (some "")] ↔
      (⟨"Peanut", some "2", true, false, true⟩ : DState).value ≠ some "") :=
  clearClick_spec ⟨"Peanut", some "2", true, false, true⟩ rfl

end Dropdown
